import Mathlib

set_option maxRecDepth 40000

/-! ## Definitions: the embedded data model and operations -/

/-- The characters matched by Python `str.strip()` (no arguments) and by the
regex class `\s`, restricted to ASCII. -/
def isPySpace (c : Char) : Bool :=
  c = ' ' ∨ c = '\t' ∨ c = '\n' ∨ c = '\r' ∨ c = '\x0b' ∨ c = '\x0c'

/-- `str.strip()` on a character list. -/
def stripList (cs : List Char) : List Char :=
  ((cs.dropWhile isPySpace).reverse.dropWhile isPySpace).reverse

/-- `str.rstrip()` on a character list. -/
def rstripList (cs : List Char) : List Char :=
  (cs.reverse.dropWhile isPySpace).reverse

/-- Python `str.strip()`. -/
def pyStrip (s : String) : String := ⟨stripList s.toList⟩

/-- Python `str.rstrip()`. -/
def pyRstrip (s : String) : String := ⟨rstripList s.toList⟩

/-- Python `str.startswith`. -/
def pyStartswith (s pre : String) : Bool := pre.toList.isPrefixOf s.toList

/-- Python substring containment `needle in hay`. -/
def containsSub : List Char → List Char → Bool
  | hay, needle =>
    if needle.isPrefixOf hay then true
    else
      match hay with
      | [] => false
      | _ :: rest => containsSub rest needle

/-- Python `needle in hay` on strings. -/
def pyIn (needle hay : String) : Bool := containsSub hay.toList needle.toList

/-- ASCII `str.lower()` on a character list. -/
def lowerList (cs : List Char) : List Char := cs.map Char.toLower

/-- Python `str.lower()` (ASCII). -/
def pyLower (s : String) : String := ⟨lowerList s.toList⟩

/-- Index of the first occurrence of `needle` in `hay` (Python `str.find`,
with `none` in place of `-1`). -/
def findSubPos (hay needle : List Char) : Option Nat :=
  if needle.isPrefixOf hay then some 0
  else
    match hay with
    | [] => none
    | _ :: rest => (findSubPos rest needle).map (· + 1)

/-- Split at the first occurrence of character `c`: returns the part before
and the part after (excluding `c`), or `none` when `c` does not occur. -/
def splitAtFirst : List Char → Char → Option (List Char × List Char)
  | [], _ => none
  | a :: rest, c =>
    if a = c then some ([], rest)
    else (splitAtFirst rest c).map (fun p => (a :: p.1, p.2))

/-- Python `str.split('\n')` (keeps empty pieces). -/
def splitNlAux : List Char → List Char → List String
  | [], acc => [⟨acc.reverse⟩]
  | c :: rest, acc =>
    if c = '\n' then ⟨acc.reverse⟩ :: splitNlAux rest []
    else splitNlAux rest (c :: acc)

/-- Python `str.split('\n')`. -/
def pySplitNl (s : String) : List String := splitNlAux s.toList []

/-- `line.replace(chr, '', 1)`: remove the first occurrence of a character. -/
def removeFirst : List Char → Char → List Char
  | [], _ => []
  | a :: rest, c => if a = c then rest else a :: removeFirst rest c

/-- `str.strip('<>')`: remove all leading and trailing `<` and `>`. -/
def stripAngleSet (cs : List Char) : List Char :=
  let inSet : Char → Bool := fun c => c = '<' ∨ c = '>'
  ((cs.dropWhile inSet).reverse.dropWhile inSet).reverse

/-- Case-insensitively drop `pat` (given in lowercase) as a prefix of `cs`,
returning the remainder on success. -/
def ciDrop : List Char → List Char → Option (List Char)
  | [], hay => some hay
  | _ :: _, [] => none
  | p :: ps, h :: hs => if p = h.toLower then ciDrop ps hs else none

/-- ASCII hexadecimal digit ( `[A-Fa-f0-9]` ). -/
def isHexDigitChar (c : Char) : Bool :=
  c.isDigit ∨ ('a' ≤ c ∧ c ≤ 'f') ∨ ('A' ≤ c ∧ c ≤ 'F')

/-- Numeric value of a hexadecimal digit. -/
def hexVal (c : Char) : Nat :=
  if c.isDigit then c.toNat - '0'.toNat
  else if 'a' ≤ c ∧ c ≤ 'f' then 10 + c.toNat - 'a'.toNat
  else if 'A' ≤ c ∧ c ≤ 'F' then 10 + c.toNat - 'A'.toNat
  else 0

/-- Value of a digit string in the given base. -/
def natFromDigits (base : Nat) (ds : List Char) : Nat :=
  ds.foldl (fun n c => base * n + hexVal c) 0

/-- Checks a digit-with-underscores run: every underscore is surrounded by
digits and the run ends in a digit.  `prevDigit` records whether the
previous character was a digit (`true` directly after a base prefix, where
CPython allows one leading underscore). -/
def undOk (isD : Char → Bool) : List Char → Bool → Bool
  | [], prevDigit => prevDigit
  | c :: rest, prevDigit =>
    if c = '_' then prevDigit && undOk isD rest false
    else isD c && undOk isD rest true

def isOctDigitChar (c : Char) : Bool := '0' ≤ c ∧ c ≤ '7'

def isBinDigitChar (c : Char) : Bool := c = '0' ∨ c = '1'

/-- Decimal literal: digits with single interior underscores, where a
leading `0` forces the whole literal to be zeros. -/
def decLiteral (cs : List Char) : Option Nat :=
  if undOk Char.isDigit cs false then
    let ds := cs.filter (fun c => ¬ c = '_')
    match ds with
    | '0' :: rest => if rest.all (fun c => c = '0') then some 0 else none
    | _ => some (natFromDigits 10 ds)
  else none

/-- Unsigned part of a CPython base-0 integer literal. -/
def parseLiteralBase0 : List Char → Option Nat
  | '0' :: c :: rest =>
    if c = 'x' ∨ c = 'X' then
      if rest ≠ [] ∧ undOk isHexDigitChar rest true then
        some (natFromDigits 16 (rest.filter (fun d => ¬ d = '_')))
      else none
    else if c = 'o' ∨ c = 'O' then
      if rest ≠ [] ∧ undOk isOctDigitChar rest true then
        some (natFromDigits 8 (rest.filter (fun d => ¬ d = '_')))
      else none
    else if c = 'b' ∨ c = 'B' then
      if rest ≠ [] ∧ undOk isBinDigitChar rest true then
        some (natFromDigits 2 (rest.filter (fun d => ¬ d = '_')))
      else none
    else decLiteral ('0' :: c :: rest)
  | cs => decLiteral cs

/-- Python `int(s, 0)` (ASCII fragment; `none` models `ValueError`). -/
def pyIntBase0 (s : String) : Option Int :=
  match stripList s.toList with
  | '+' :: rest => (parseLiteralBase0 rest).map (fun n => (n : Int))
  | '-' :: rest => (parseLiteralBase0 rest).map (fun n => -(n : Int))
  | rest => (parseLiteralBase0 rest).map (fun n => (n : Int))

/-- One attempt of `re.search(r'Setup Question\s*=\s*(.+)', line, re.I)` at
the head of `cs`: returns the captured group.  When everything after the
`=` is whitespace the regex still matches (with a whitespace capture); the
capture is returned de-whitespaced, which is equivalent for the parser
because it applies `.strip()` to the group. -/
def sqAttempt (cs : List Char) : Option (List Char) :=
  match ciDrop "setup question".toList cs with
  | none => none
  | some r1 =>
    match r1.dropWhile isPySpace with
    | '=' :: r2 => if r2 = [] then none else some (r2.dropWhile isPySpace)
    | _ => none

/-- `re.search` scan for the `Setup Question` pattern. -/
def sqSearch : List Char → Option (List Char)
  | [] => none
  | c :: rest =>
    match sqAttempt (c :: rest) with
    | some g => some g
    | none => sqSearch rest

/-- One attempt of `re.search(r'Token\s*=\s*([A-Fa-f0-9]+)', line, re.I)`. -/
def tokenAttempt (cs : List Char) : Option (List Char) :=
  match ciDrop "token".toList cs with
  | none => none
  | some r1 =>
    match r1.dropWhile isPySpace with
    | '=' :: r2 =>
      let run := (r2.dropWhile isPySpace).takeWhile isHexDigitChar
      if run = [] then none else some run
    | _ => none

/-- `re.search` scan for the `Token` pattern. -/
def tokenSearch : List Char → Option (List Char)
  | [] => none
  | c :: rest =>
    match tokenAttempt (c :: rest) with
    | some g => some g
    | none => tokenSearch rest

/-- `re.search(r'<([^>]+)>', line)`: group 1 of the first match. -/
def angleCapture : List Char → Option (List Char)
  | [] => none
  | c :: rest =>
    if c = '<' then
      let run := rest.takeWhile (fun d => ¬ d = '>')
      if run ≠ [] ∧ (rest.drop run.length).head? = some '>' then some run
      else angleCapture rest
    else angleCapture rest

/-- One attempt of the range pattern
`range[:=]?\s*(\d+)\s*[~\-]\s*(\d+)`; `ci` selects the `re.IGNORECASE`
variant (the parser compiles it with the flag, the validator fallback
without). -/
def rangeAttempt (ci : Bool) (cs : List Char) : Option (Nat × Nat) :=
  match (if ci then ciDrop "range".toList cs else
         if ("range".toList).isPrefixOf cs then some (cs.drop 5) else none) with
  | none => none
  | some r1 =>
    let r2 := match r1 with
              | c :: rest => if c = ':' ∨ c = '=' then rest else r1
              | [] => r1
    let r3 := r2.dropWhile isPySpace
    let d1 := r3.takeWhile Char.isDigit
    if d1 = [] then none
    else
      match (r3.drop d1.length).dropWhile isPySpace with
      | c :: r5 =>
        if c = '~' ∨ c = '-' then
          let d2 := (r5.dropWhile isPySpace).takeWhile Char.isDigit
          if d2 = [] then none
          else some (natFromDigits 10 d1, natFromDigits 10 d2)
        else none
      | [] => none

/-- `re.search` scan for the range pattern. -/
def rangeScan (ci : Bool) : List Char → Option (Nat × Nat)
  | [] => none
  | c :: rest =>
    match rangeAttempt ci (c :: rest) with
    | some p => some p
    | none => rangeScan ci rest

/-- Lookahead `(?=Setup Question\s*=)` (case-insensitive; `\s` may cross
line boundaries). -/
def sqLookahead (cs : List Char) : Bool :=
  match ciDrop "setup question".toList cs with
  | none => false
  | some r =>
    match r.dropWhile isPySpace with
    | '=' :: _ => true
    | _ => false

/-- `re.split(r'\n(?=Setup Question\s*=)', content, flags=re.I)`:
split at every newline directly followed by the lookahead, consuming the
newline. -/
def blockSplitAux : List Char → List Char → List String
  | [], acc => [⟨acc.reverse⟩]
  | c :: rest, acc =>
    if c = '\n' ∧ sqLookahead rest then ⟨acc.reverse⟩ :: blockSplitAux rest []
    else blockSplitAux rest (c :: acc)

/-- The block split of `parse_file`. -/
def blockSplit (s : String) : List String := blockSplitAux s.toList []

/-- The `BIOSSetting` record of the program (all fields of `__slots__`).
`range_min`/`range_max` are `Option Int` for Python `None` / `int`. -/
structure BIOSSetting where
  setup_question : String
  help_string : String
  token : String
  offset : String
  width : String
  bios_default : String
  options : List (String × String × Bool)
  current_value : String
  is_numeric : Bool
  original_value : String
  original_has_options : Bool
  original_block_lines : List String
  range_min : Option Int
  range_max : Option Int
deriving DecidableEq

/-- A freshly constructed `BIOSSetting()` (the `__init__` defaults). -/
def BIOSSetting.init : BIOSSetting where
  setup_question := ""
  help_string := ""
  token := ""
  offset := ""
  width := ""
  bios_default := ""
  options := []
  current_value := ""
  is_numeric := false
  original_value := ""
  original_has_options := false
  original_block_lines := []
  range_min := none
  range_max := none

/-- `_extract_value_fast`: text after the first `=`, stripped, with one
surrounding `<...>` pair removed when present. -/
def extractValueFast (line : String) : String :=
  match splitAtFirst line.toList '=' with
  | none => ""
  | some (_, after) =>
    let v := stripList after
    if v.head? = some '<' ∧ v.getLast? = some '>' then ⟨(v.drop 1).dropLast⟩
    else ⟨v⟩

/-- `_process_option_line_fast`: a `*` anywhere marks the current option
(and its first occurrence is removed), the value is the stripped text of
the first `[...]` group, the description the stripped text after `]` up to
a `//` comment. -/
def processOptionLineFast (st : BIOSSetting) (line : String) : BIOSSetting :=
  let cs := line.toList
  let isCur := cs.contains '*'
  let clean := if isCur then removeFirst cs '*' else cs
  match splitAtFirst clean '[' with
  | none => st
  | some (_, afterBr) =>
    match splitAtFirst afterBr ']' with
    | none => st
    | some (valRaw, afterCl) =>
      let value : String := ⟨stripList valRaw⟩
      let descRegion := match findSubPos afterCl ['/', '/'] with
                        | some p => afterCl.take p
                        | none => afterCl
      let description : String := ⟨stripList descRegion⟩
      let st1 := { st with options := st.options ++ [(value, description, isCur)] }
      if isCur then { st1 with current_value := value } else st1

/-- One step of the field-extraction `elif` chain over a (stripped,
non-comment) line. -/
def processLine (st : BIOSSetting) (line : String) : BIOSSetting :=
  if pyStartswith line "Help String" then { st with help_string := extractValueFast line }
  else if pyStartswith line "Token" then
    match tokenSearch line.toList with
    | some run => { st with token := ⟨run⟩ }
    | none => st
  else if pyStartswith line "Offset" then { st with offset := extractValueFast line }
  else if pyStartswith line "Width" then { st with width := extractValueFast line }
  else if pyStartswith line "BIOS Default" then
    { st with bios_default := ⟨stripAngleSet (extractValueFast line).toList⟩ }
  else if pyStartswith line "Value" then
    { st with current_value :=
        match angleCapture line.toList with
        | some g => ⟨g⟩
        | none => extractValueFast line }
  else if pyStartswith line "Options" ∨ line.toList.contains '[' then
    processOptionLineFast st line
  else st

/-- The numeric-value / range inference that follows field extraction:
an all-digits value sets `is_numeric` and triggers the range search over
the help string (`re.IGNORECASE`). -/
def inferNumericRange (st : BIOSSetting) : BIOSSetting :=
  if st.current_value ≠ "" ∧ (st.current_value.toList.all Char.isDigit) then
    let st1 := { st with is_numeric := true }
    if st1.help_string ≠ "" then
      match rangeScan true st1.help_string.toList with
      | some (a, b) => { st1 with range_min := some (a : Int), range_max := some (b : Int) }
      | none => st1
    else st1
  else st

/-- Condition of the Enabled/Disabled option synthesis of the live parser:
value exactly `0` or `1`, no options parsed, and the *question* text
contains `enable` or `disable` (case-insensitive). -/
def synthCond (st : BIOSSetting) : Bool :=
  (st.current_value == "0" || st.current_value == "1") && st.options.isEmpty &&
    (pyIn "enable" (pyLower st.setup_question) || pyIn "disable" (pyLower st.setup_question))

/-- The option synthesis step. -/
def applySynth (st : BIOSSetting) : BIOSSetting :=
  if synthCond st then
    { st with
      options := [("1", "Enabled", st.current_value == "1"),
                  ("0", "Disabled", st.current_value == "0")]
      is_numeric := false }
  else st

/-- The semantic (stripped, non-`//`) lines of a block. -/
def semanticLines (blockLines : List String) : List String :=
  blockLines.filterMap (fun l =>
    let s := pyStrip l
    if pyStartswith s "//" then none else some s)

/-- Field-extraction stage of `_parse_setting_block_optimized`: guards,
line lists, the `Setup Question` match on the first semantic line and the
`elif`-chain fold over the remaining lines.  Returns the setting before
numeric inference and option synthesis. -/
def fieldStage (block : String) : Option BIOSSetting :=
  if block = "" ∨ pyStartswith (pyStrip block) "//" then none
  else
    let blockLines := (pySplitNl block).filter (fun l => pyStrip l ≠ "")
    match semanticLines blockLines with
    | [] => none
    | l0 :: rest =>
      match sqSearch l0.toList with
      | none => none
      | some g =>
        let st0 := { BIOSSetting.init with
                      original_block_lines := blockLines
                      setup_question := pyStrip ⟨g⟩ }
        some (rest.foldl processLine st0)

/-- Inference, synthesis and the final `setup_question`/`token` guard. -/
def finishSetting (st : BIOSSetting) : Option BIOSSetting :=
  let s := applySynth (inferNumericRange st)
  if s.setup_question ≠ "" ∧ s.token ≠ "" then some s else none

/-- `_parse_setting_block_optimized` (the parser used by `parse_file`). -/
def parseBlockOpt (block : String) : Option BIOSSetting :=
  (fieldStage block).bind finishSetting

/-- `content[header_end_pos:]` of `parse_file` (the whole content when
`Setup Question` is absent or at position 0). -/
def settingContentOf (content : String) : String :=
  match findSubPos content.toList ("Setup Question".toList) with
  | some p => if 0 < p then ⟨content.toList.drop p⟩ else content
  | none => content

/-- `raw_header` of `parse_file`. -/
def rawHeaderOf (content : String) : String :=
  match findSubPos content.toList ("Setup Question".toList) with
  | some p => if 0 < p then ⟨content.toList.take p⟩ else ""
  | none => ""

/-- The stripped, length-filtered block list of `parse_file`:
`[b.strip() for b in blocks if b.strip() and len(b.strip()) > 10]`. -/
def keptBlocksOf (content : String) : List String :=
  (blockSplit (settingContentOf content)).filterMap (fun b =>
    let s := pyStrip b
    if s ≠ "" ∧ 10 < s.length then some s else none)

/-- The settings produced by `parse_file` (header split, block split,
length filter, per-block parse; malformed blocks yield `none` and are
skipped). -/
def parseDocSettings (content : String) : List BIOSSetting :=
  (keptBlocksOf content).filterMap parseBlockOpt

/-- `parse_file` as a pure text-level function: raw header and settings. -/
def parseDoc (content : String) : String × List BIOSSetting :=
  (rawHeaderOf content, parseDocSettings content)

/-- The four error shapes appended by
`validate_settings_against_original`, abstracting the f-string messages. -/
inductive Violation
  | notInOptionSet (question value : String) (allowed : List String)
  | multipleOrNoCurrent (question : String) (count : Nat)
  | outOfRange (question : String) (v lo hi : Int)
  | notAnInteger (question value : String)
deriving DecidableEq

def Violation.isNotInOptionSet : Violation → Bool
  | .notInOptionSet _ _ _ => true
  | _ => false

def Violation.isMultipleOrNoCurrent : Violation → Bool
  | .multipleOrNoCurrent _ _ => true
  | _ => false

def Violation.isOutOfRange : Violation → Bool
  | .outOfRange _ _ _ _ => true
  | _ => false

def Violation.isNotAnInteger : Violation → Bool
  | .notAnInteger _ _ => true
  | _ => false

/-- The per-setting body of `validate_settings_against_original`:
option settings are checked for membership and for an exact count of one
matching option; scalar settings with both range bounds are checked with
`int(value, 0)`; scalar settings without parsed bounds fall back to a
case-sensitive range search over the help string. -/
def validateSetting (s : BIOSSetting) : List Violation :=
  if s.original_has_options = true ∧ s.options ≠ [] then
    let allowed := s.options.map (fun o => o.1)
    let e1 := if s.current_value ∈ allowed then ([] : List Violation)
              else [.notInOptionSet s.setup_question s.current_value allowed]
    let cnt := (s.options.filter (fun o => o.1 == s.current_value)).length
    let e2 := if cnt ≠ 1 then [Violation.multipleOrNoCurrent s.setup_question cnt]
              else []
    e1 ++ e2
  else if s.original_has_options = false then
    match s.range_min, s.range_max with
    | some lo, some hi =>
      (match pyIntBase0 s.current_value with
       | some v =>
         if ¬ (lo ≤ v ∧ v ≤ hi) then [.outOfRange s.setup_question v lo hi] else []
       | none => [.notAnInteger s.setup_question s.current_value])
    | _, _ =>
      if s.help_string ≠ "" then
        match rangeScan false s.help_string.toList with
        | some (a, b) =>
          (match pyIntBase0 s.current_value with
           | some v =>
             if ¬ ((a : Int) ≤ v ∧ v ≤ (b : Int)) then
               [.outOfRange s.setup_question v (a : Int) (b : Int)]
             else []
           | none => [.notAnInteger s.setup_question s.current_value])
        | none => []
      else []
  else []

/-- `validate_settings_against_original` over the whole settings list. -/
def validateSettings (settings : List BIOSSetting) : List Violation :=
  (settings.map validateSetting).flatten

/-- The option-line marker loop of the generator: for the first option whose
`[value]` occurs in the lowercased line (or whose description occurs in it),
prepend `*` when that option is the current value, then stop. -/
def markerLine (opts : List (String × String × Bool)) (cv : String)
    (updated : List Char) : List Char :=
  match opts with
  | [] => updated
  | (value, desc, _) :: rest =>
    let ll := lowerList updated
    if containsSub ll ("[" ++ value ++ "]").toList ||
       (desc ≠ "" && containsSub ll (lowerList desc.toList)) then
      if value == cv then '*' :: updated else updated
    else markerLine rest cv updated

/-- Generator treatment of one line of an option-style block: remove the
first `*`, then re-add a marker via `markerLine`. -/
def renderOptionLine (s : BIOSSetting) (line : String) : String :=
  let cs := line.toList
  let updated := if cs.contains '*' then removeFirst cs '*' else cs
  ⟨markerLine s.options s.current_value updated⟩

/-- The fixed replacement emitted for every line starting (after `strip`)
with `Value` in a scalar block. -/
def valueLineTemplate (cv : String) : String := "Value         = <" ++ cv ++ ">"

/-- The per-block line transformation of `generate_nvram_file`:
option blocks (`original_has_options` and nonempty options) get the marker
recomputation, scalar blocks get every `Value` line replaced by the fixed
template, and blocks with `original_has_options` but no options pass
through unchanged. -/
def renderBlockLines (s : BIOSSetting) : List String :=
  if s.original_has_options = true ∧ s.options ≠ [] then
    s.original_block_lines.map (renderOptionLine s)
  else if s.original_has_options = false then
    s.original_block_lines.map (fun line =>
      if pyStartswith (pyStrip line) "Value" then valueLineTemplate s.current_value
      else line)
  else s.original_block_lines

/-- The text written for one setting: each line `rstrip`-ped and terminated
by a newline. -/
def renderBlock (s : BIOSSetting) : String :=
  String.join ((renderBlockLines s).map (fun l => pyRstrip l ++ "\n"))

/-- `generate_nvram_file` as a text-level function.  `defaultHeader` stands
for the synthesized header branch (which interpolates the current date and
is only taken when the parsed raw header is empty). -/
def render (rawHeader defaultHeader : String) (settings : List BIOSSetting) : String :=
  (if rawHeader ≠ "" then rawHeader else defaultHeader) ++
    String.join (settings.map renderBlock)

/-- A history snapshot: the `(token, current_value)` pair list
`[(s.token, s.current_value) for s in self.settings]`. -/
abbrev Snap := List (String × String)

def snapshotOf (settings : List BIOSSetting) : Snap :=
  settings.map (fun s => (s.token, s.current_value))

/-- Python `dict(pairs)[t]` lookup: the value of the *last* pair whose key
is `t`. -/
def dictGet (snap : Snap) (t : String) : Option String :=
  (snap.reverse.find? (fun p => p.1 == t)).map (fun p => p.2)

/-- Application of a snapshot to one setting: settings whose token is
absent from the snapshot are left untouched. -/
def applySnapSetting (snap : Snap) (s : BIOSSetting) : BIOSSetting :=
  match dictGet snap s.token with
  | some v => { s with current_value := v }
  | none => s

/-- `for s in self.settings: if s.token in token_to_value: ...` -/
def applySnap (snap : Snap) (settings : List BIOSSetting) : List BIOSSetting :=
  settings.map (applySnapSetting snap)

/-- Python `lst[-n:]`. -/
def pyTakeLast (n : Nat) (l : List α) : List α := l.drop (l.length - n)

/-- The mutable state touched by `push_undo` / `undo` / `redo`: the settings
list and the two stacks (list end = stack top, as for Python `append`/`pop`). -/
structure GuiState where
  settings : List BIOSSetting
  undo_stack : List Snap
  redo_stack : List Snap
deriving DecidableEq

/-- `push_undo`: append the current snapshot, keep the last 30 entries,
clear the redo stack. -/
def pushUndo (st : GuiState) : GuiState :=
  ⟨st.settings, pyTakeLast 30 (st.undo_stack ++ [snapshotOf st.settings]), []⟩

/-- `undo`: the returned flag is true exactly when the "Nothing to undo"
signal is shown and the state is left unchanged.  (The
`check_can_proceed` guard is an interactive-widget check outside the
history core; the spec assigns it to the calling layer.) -/
def undoOp (st : GuiState) : GuiState × Bool :=
  match st.undo_stack.getLast? with
  | none => (st, true)
  | some σ =>
    (⟨applySnap σ st.settings, st.undo_stack.dropLast,
      st.redo_stack ++ [snapshotOf st.settings]⟩, false)

/-- `redo`: symmetric, with the 30-entry bound applied to the undo stack. -/
def redoOp (st : GuiState) : GuiState × Bool :=
  match st.redo_stack.getLast? with
  | none => (st, true)
  | some σ =>
    (⟨applySnap σ st.settings,
      pyTakeLast 30 (st.undo_stack ++ [snapshotOf st.settings]),
      st.redo_stack.dropLast⟩, false)

def undoN : Nat → GuiState → GuiState
  | 0, st => st
  | n + 1, st => undoN n (undoOp st).1

def redoN : Nat → GuiState → GuiState
  | 0, st => st
  | n + 1, st => redoN n (redoOp st).1

/-- The mutation performed by an interactive edit (`push_and_refresh`):
set `current_value` and recompute the options' `is_current` flags on the
setting with the given token. -/
def editSetting (s : BIOSSetting) (val : String) : BIOSSetting :=
  { s with
    current_value := val
    options := s.options.map (fun o => (o.1, o.2.1, o.1 == val)) }

def editSettingsList (settings : List BIOSSetting) (tok val : String) :
    List BIOSSetting :=
  settings.map (fun s => if s.token == tok then editSetting s val else s)

/-- One interactive edit: `push_undo()` then the mutation. -/
def editStep (st : GuiState) (e : String × String) : GuiState :=
  let st1 := pushUndo st
  ⟨editSettingsList st1.settings e.1 e.2, st1.undo_stack, st1.redo_stack⟩

def applyEdits (st : GuiState) (es : List (String × String)) : GuiState :=
  es.foldl editStep st

def c4WitnessSetting : BIOSSetting :=
  { BIOSSetting.init with
    original_has_options := true
    options := [("1", "On", true), ("2", "Off", false)]
    current_value := "3" }

/-- The claim's `parseInt`, following the spec's words: an integer written
in decimal, or with a `0x` hexadecimal prefix.  Stated for comparison with
`pyIntBase0`, which is what the validator actually calls. -/
def specParseIntDecOrHex (s : String) : Option Int :=
  if s.toList ≠ [] ∧ s.toList.all Char.isDigit then
    some (natFromDigits 10 s.toList)
  else
    match s.toList with
    | '0' :: 'x' :: rest =>
      if rest ≠ [] ∧ rest.all isHexDigitChar then some (natFromDigits 16 rest)
      else none
    | _ => none

def c5WitnessSetting : BIOSSetting :=
  { BIOSSetting.init with
    range_min := some 0
    range_max := some 31
    current_value := "32" }

def c6WitnessSetting : BIOSSetting :=
  { BIOSSetting.init with
    original_block_lines := ["Setup Question = A", "Token = 11", "Value = <5>"]
    current_value := "7" }

def c3WitnessBlock : String := "Setup Question = A\nToken = 1A\nValue = <2>"

def c3WitnessP : BIOSSetting :=
  { BIOSSetting.init with
    setup_question := "A"
    token := "1A"
    current_value := "2"
    original_block_lines := ["Setup Question = A", "Token = 1A", "Value = <2>"] }

def c3WitnessS : BIOSSetting := { c3WitnessP with is_numeric := true }

/-- The document used to exhibit the round-trip failure: a header, one
scalar block whose `Value` line is not in the generator's fixed-width
format, and no trailing newline. -/
def c1Doc : String := "// hdr\nSetup Question = A\nToken = 11\nValue = <5>"

/-- Two-block document for the minimal-diff counterexample. -/
def c2Doc : String :=
  "// hdr\nSetup Question = Alpha\nToken = 11\nValue = <1>\n\nSetup Question = Beta\nToken = 22\nValue = <2>"

def c2WitnessSettings : List BIOSSetting :=
  [{ BIOSSetting.init with
      token := "11", current_value := "1"
      original_block_lines := ["Setup Question = Alpha", "Token = 11", "Value = <1>"] },
   { BIOSSetting.init with
      token := "22", current_value := "2"
      original_block_lines := ["Setup Question = Beta", "Token = 22", "Value = <2>"] }]

def c9B1 : String := "Setup Question = A\nToken = 11\nValue = <1>"

def c9B2 : String := "Setup Question = B\nHelp String = x\nValue = <2>"

def c9B3 : String := "Setup Question = C\nToken = 33\nValue = <3>"

def c9Doc : String := c9B1 ++ "\n" ++ c9B2 ++ "\n" ++ c9B3

/-- The three history operations reachable from the UI. -/
inductive HistOp
  | push
  | undoCmd
  | redoCmd
deriving DecidableEq

def execOp (st : GuiState) : HistOp → GuiState
  | .push => pushUndo st
  | .undoCmd => (undoOp st).1
  | .redoCmd => (redoOp st).1

def c8WitnessState : GuiState := ⟨[], List.replicate 30 [], []⟩

def tokensOf (l : List BIOSSetting) : List String := l.map (fun s => s.token)

/-- The snapshots pushed onto the opposite stack while a stack `U` is being
fully consumed from a state whose settings snapshot is `sx`. -/
def popTrace (sx : Snap) (U : List Snap) : List Snap :=
  if U.isEmpty then [] else sx :: U.reverse.dropLast

/-- The settings list after a sequence of edits (ignoring the stacks). -/
def editFold (X : List BIOSSetting) (es : List (String × String)) : List BIOSSetting :=
  es.foldl (fun Y e => editSettingsList Y e.1 e.2) X

/-- The snapshots pushed by `push_undo` during a sequence of edits, oldest
first: the snapshot taken before each edit. -/
def editTrace (X : List BIOSSetting) : List (String × String) → List Snap
  | [] => []
  | e :: es => snapshotOf X :: editTrace (editSettingsList X e.1 e.2) es

def c7S0 : List BIOSSetting :=
  [{ BIOSSetting.init with token := "01", current_value := "v0" }]

def c7WitnessS : BIOSSetting := { BIOSSetting.init with token := "01" }

/-! ## Concrete evaluations of the embedding -/

example : natFromDigits 16 ("1F".toList) = 31 := by decide

example : pyStrip "  a b \n" = "a b" := by decide

example : pyIn "abc" "xxabcy" = true := by decide

example : pyIn "abc" "xxaby" = false := by decide

example : splitAtFirst "a=b=c".toList '=' = some ("a".toList, "b=c".toList) := by decide

example : pyIntBase0 "32" = some 32 := by decide

example : pyIntBase0 "0x1F" = some 31 := by decide

example : pyIntBase0 "0o17" = some 15 := by decide

example : pyIntBase0 "010" = none := by decide

example : pyIntBase0 "00" = some 0 := by decide

example : pyIntBase0 "0_0" = some 0 := by decide

example : pyIntBase0 "0_1" = none := by decide

example : pyIntBase0 "0x_1f" = some 31 := by decide

example : pyIntBase0 "1_0" = some 10 := by decide

example : pyIntBase0 "1__0" = none := by decide

example : pyIntBase0 " -5 " = some (-5) := by decide

example : pyIntBase0 "- 5" = none := by decide

example : pyIntBase0 "" = none := by decide

example : pyIntBase0 "0x" = none := by decide

example : sqSearch "Setup Question = ABC".toList = some "ABC".toList := by decide

example : tokenSearch "Token = 1A // x".toList = some "1A".toList := by decide

example : angleCapture "Value = <12>".toList = some "12".toList := by decide

example : angleCapture "Value = <>".toList = none := by decide

example : rangeScan true "Range: 0 ~ 31 units".toList = some (0, 31) := by decide

example : rangeScan false "Range: 0 ~ 31".toList = none := by decide

example : blockSplit "h\nSetup Question = A\nx\nSetup Question = B\n" =
    ["h", "Setup Question = A\nx", "Setup Question = B\n"] := by decide

example :
    (parseBlockOpt "Setup Question = A\nToken = 1A\nValue = <1>").map
      (fun s => (s.setup_question, s.token, s.current_value, s.is_numeric)) =
    some ("A", "1A", "1", true) := by decide

example :
    (parseBlockOpt "Setup Question = Fan\nOptions = *[01]On\n  [00]Off").map
      (fun s => (s.token, s.options, s.current_value)) = none := by decide

example :
    (parseBlockOpt "Setup Question = Fan\nToken = 2B\nOptions = *[01]On // c\n  [00]Off").map
      (fun s => (s.options, s.current_value)) =
    some ([("01", "On", true), ("00", "Off", false)], "01") := by decide

example :
    (parseBlockOpt "Setup Question = CAS\nHelp String = range: 0 ~ 31\nToken = 3C\nValue = <12>").map
      (fun s => (s.is_numeric, s.range_min, s.range_max)) =
    some (true, some 0, some 31) := by decide

example :
    (parseBlockOpt "Setup Question = Enable Turbo\nToken = 4D\nValue = <1>").map
      (fun s => (s.options, s.is_numeric)) =
    some ([("1", "Enabled", true), ("0", "Disabled", false)], false) := by decide

example :
    renderBlock { BIOSSetting.init with
                  original_has_options := false
                  original_block_lines := ["Setup Question = A", "Value = <5>"]
                  current_value := "5" } =
    "Setup Question = A\nValue         = <5>\n" := by decide

/-! ## Helper lemmas -/

lemma processOptionLineFast_is_numeric (st : BIOSSetting) (line : String) :
    (processOptionLineFast st line).is_numeric = st.is_numeric := by
  unfold processOptionLineFast
  dsimp only
  repeat' split
  all_goals rfl

lemma processOptionLineFast_token (st : BIOSSetting) (line : String) :
    (processOptionLineFast st line).token = st.token := by
  unfold processOptionLineFast
  dsimp only
  repeat' split
  all_goals rfl

lemma processLine_is_numeric (st : BIOSSetting) (line : String) :
    (processLine st line).is_numeric = st.is_numeric := by
  unfold processLine
  repeat' split
  all_goals first | rfl | (exact processOptionLineFast_is_numeric st line)

lemma processLine_token (st : BIOSSetting) (line : String)
    (h : pyStartswith line "Token" = false) :
    (processLine st line).token = st.token := by
  unfold processLine
  rw [h]
  repeat' split
  all_goals first | rfl | (exact processOptionLineFast_token st line) | simp_all

lemma foldl_processLine_is_numeric (lines : List String) :
    ∀ st : BIOSSetting, (lines.foldl processLine st).is_numeric = st.is_numeric := by
  induction lines with
  | nil => intro st; rfl
  | cons l rest ih =>
    intro st
    rw [List.foldl_cons, ih, processLine_is_numeric]

lemma foldl_processLine_token (lines : List String)
    (h : ∀ l ∈ lines, pyStartswith l "Token" = false) :
    ∀ st : BIOSSetting, (lines.foldl processLine st).token = st.token := by
  induction lines with
  | nil => intro st; rfl
  | cons l rest ih =>
    intro st
    rw [List.foldl_cons, ih (fun x hx => h x (List.mem_cons_of_mem l hx)),
      processLine_token st l (h l (List.mem_cons_self l rest))]

lemma inferNumericRange_current_value (st : BIOSSetting) :
    (inferNumericRange st).current_value = st.current_value := by
  unfold inferNumericRange
  dsimp only
  repeat' split
  all_goals rfl

lemma inferNumericRange_options (st : BIOSSetting) :
    (inferNumericRange st).options = st.options := by
  unfold inferNumericRange
  dsimp only
  repeat' split
  all_goals rfl

lemma inferNumericRange_setup_question (st : BIOSSetting) :
    (inferNumericRange st).setup_question = st.setup_question := by
  unfold inferNumericRange
  dsimp only
  repeat' split
  all_goals rfl

lemma inferNumericRange_token (st : BIOSSetting) :
    (inferNumericRange st).token = st.token := by
  unfold inferNumericRange
  dsimp only
  repeat' split
  all_goals rfl

lemma applySynth_token (st : BIOSSetting) :
    (applySynth st).token = st.token := by
  unfold applySynth
  split
  all_goals rfl

lemma applySynth_setup_question (st : BIOSSetting) :
    (applySynth st).setup_question = st.setup_question := by
  unfold applySynth
  split
  all_goals rfl

lemma synthCond_inferNumericRange (st : BIOSSetting) :
    synthCond (inferNumericRange st) = synthCond st := by
  unfold synthCond
  rw [inferNumericRange_current_value, inferNumericRange_options,
    inferNumericRange_setup_question]

lemma fieldStage_is_numeric {block : String} {p : BIOSSetting}
    (hf : fieldStage block = some p) : p.is_numeric = false := by
  unfold fieldStage at hf
  split at hf
  · exact Option.noConfusion hf
  · dsimp only at hf
    split at hf
    · exact Option.noConfusion hf
    · split at hf
      · exact Option.noConfusion hf
      · have heq := Option.some.inj hf
        subst heq
        rw [foldl_processLine_is_numeric]
        rfl

lemma inferNumericRange_is_numeric (st : BIOSSetting) (h : st.is_numeric = false) :
    ((inferNumericRange st).is_numeric = true ↔
      st.current_value ≠ "" ∧ st.current_value.toList.all Char.isDigit = true) := by
  unfold inferNumericRange
  dsimp only
  repeat' split
  all_goals simp_all

lemma token_finishSetting_none (st : BIOSSetting) (h : st.token = "") :
    finishSetting st = none := by
  have ht : (applySynth (inferNumericRange st)).token = "" := by
    rw [applySynth_token, inferNumericRange_token, h]
  unfold finishSetting
  dsimp only
  rw [if_neg (fun hc => hc.2 ht)]

/-- A block none of whose semantic lines starts with `Token` leaves the
token field empty, so the final guard of the block parser rejects it. -/
lemma parseBlockOpt_none_of_no_token (bad : String)
    (h : ∀ l ∈ semanticLines ((pySplitNl bad).filter (fun x => pyStrip x ≠ "")),
        pyStartswith l "Token" = false) :
    parseBlockOpt bad = none := by
  unfold parseBlockOpt fieldStage
  split
  · rfl
  · dsimp only
    split
    · rfl
    · split
      · rfl
      · rename_i l0 rest hsem r1 g hsq
        show finishSetting _ = none
        apply token_finishSetting_none
        rw [foldl_processLine_token rest (fun l hl => h l (by rw [hsem]; exact List.mem_cons_of_mem _ hl))]
        rfl

lemma length_filterMap_of_isSome {α β : Type} (l : List α) (f : α → Option β)
    (h : ∀ a ∈ l, (f a).isSome = true) : (l.filterMap f).length = l.length := by
  induction l with
  | nil => rfl
  | cons a rest ih =>
    have ha := h a (List.mem_cons_self a rest)
    rw [List.filterMap_cons]
    cases hfa : f a with
    | none => rw [hfa] at ha; exact absurd ha (by simp)
    | some b =>
      simp only [List.length_cons, ih (fun x hx => h x (List.mem_cons_of_mem a hx))]

lemma pyTakeLast_length {α : Type} (n : Nat) (l : List α) :
    (pyTakeLast n l).length = l.length - (l.length - n) := by
  unfold pyTakeLast
  rw [List.length_drop]

lemma execOp_bound (st : GuiState) (op : HistOp)
    (h : st.undo_stack.length + st.redo_stack.length ≤ 30) :
    (execOp st op).undo_stack.length + (execOp st op).redo_stack.length ≤ 30 := by
  cases op with
  | push =>
    show (pushUndo st).undo_stack.length + (pushUndo st).redo_stack.length ≤ 30
    unfold pushUndo
    dsimp only
    rw [pyTakeLast_length, List.length_append]
    simp
    omega
  | undoCmd =>
    show (undoOp st).1.undo_stack.length + (undoOp st).1.redo_stack.length ≤ 30
    unfold undoOp
    cases hl : st.undo_stack.getLast? with
    | none => simpa using h
    | some σ =>
      have hne : st.undo_stack ≠ [] := by
        intro he
        rw [he] at hl
        exact Option.noConfusion hl
      have hpos : 0 < st.undo_stack.length := List.length_pos.mpr hne
      dsimp only
      rw [List.length_dropLast, List.length_append]
      simp
      omega
  | redoCmd =>
    show (redoOp st).1.undo_stack.length + (redoOp st).1.redo_stack.length ≤ 30
    unfold redoOp
    cases hl : st.redo_stack.getLast? with
    | none => simpa using h
    | some σ =>
      have hne : st.redo_stack ≠ [] := by
        intro he
        rw [he] at hl
        exact Option.noConfusion hl
      have hpos : 0 < st.redo_stack.length := List.length_pos.mpr hne
      dsimp only
      rw [pyTakeLast_length, List.length_dropLast, List.length_append]
      simp
      omega

lemma foldl_execOp_bound (ops : List HistOp) :
    ∀ st : GuiState, st.undo_stack.length + st.redo_stack.length ≤ 30 →
      (ops.foldl execOp st).undo_stack.length + (ops.foldl execOp st).redo_stack.length ≤ 30 := by
  induction ops with
  | nil => intro st h; exact h
  | cons op rest ih =>
    intro st h
    rw [List.foldl_cons]
    exact ih _ (execOp_bound st op h)

lemma find?_concat_self (L : List (String × String)) (t : String) (v : String)
    (h : ∀ p ∈ L, p.1 ≠ t) :
    (L ++ [(t, v)]).find? (fun p => p.1 == t) = some (t, v) := by
  induction L with
  | nil => simp
  | cons q L ih =>
    have hq : (q.1 == t) = false := by
      simp [h q (List.mem_cons_self q L)]
    rw [List.cons_append, List.find?_cons, hq]
    exact ih (fun p hp => h p (List.mem_cons_of_mem q hp))

lemma find?_concat_ne (L : List (String × String)) (t v x)
    (h : x ≠ t) :
    (L ++ [(t, v)]).find? (fun p => p.1 == x) = L.find? (fun p => p.1 == x) := by
  induction L with
  | nil =>
    have hb : ((t, v).1 == x) = false := by
      simp only [beq_eq_false_iff_ne, ne_eq]
      exact fun he => h he.symm
    rw [List.nil_append, List.find?_cons, hb, List.find?_nil]
  | cons q L ih =>
    rw [List.cons_append, List.find?_cons, List.find?_cons]
    cases hq : (q.1 == x) with
    | true => rfl
    | false => exact ih

lemma dictGet_cons_self (t v : String) (σr : Snap) (h : t ∉ σr.map Prod.fst) :
    dictGet ((t, v) :: σr) t = some v := by
  unfold dictGet
  rw [List.reverse_cons, find?_concat_self]
  · rfl
  · intro p hp hpt
    exact h (hpt ▸ List.mem_map_of_mem Prod.fst (List.mem_reverse.mp hp))

lemma dictGet_cons_ne (t v x : String) (σr : Snap) (h : x ≠ t) :
    dictGet ((t, v) :: σr) x = dictGet σr x := by
  unfold dictGet
  rw [List.reverse_cons, find?_concat_ne _ _ _ _ h]

lemma dictGet_not_mem (σ : Snap) (x : String) (h : x ∉ σ.map Prod.fst) :
    dictGet σ x = none := by
  unfold dictGet
  rw [List.find?_eq_none.mpr]
  · rfl
  · intro p hp hbeq
    have he : p.1 = x := by simpa using hbeq
    apply h
    rw [← he]
    exact List.mem_map_of_mem Prod.fst (List.mem_reverse.mp hp)

lemma applySnapSetting_token (σ : Snap) (s : BIOSSetting) :
    (applySnapSetting σ s).token = s.token := by
  unfold applySnapSetting
  split
  all_goals rfl

lemma applySnapSetting_not_mem (σ : Snap) (s : BIOSSetting)
    (h : s.token ∉ σ.map Prod.fst) :
    applySnapSetting σ s = s := by
  unfold applySnapSetting
  rw [dictGet_not_mem σ s.token h]

lemma tokensOf_applySnap (σ : Snap) (l : List BIOSSetting) :
    tokensOf (applySnap σ l) = tokensOf l := by
  induction l with
  | nil => rfl
  | cons s rest ih =>
    show (applySnapSetting σ s).token :: tokensOf (applySnap σ rest) =
      s.token :: tokensOf rest
    rw [applySnapSetting_token, ih]

lemma snapshot_keys (l : List BIOSSetting) :
    (snapshotOf l).map Prod.fst = tokensOf l := by
  induction l with
  | nil => rfl
  | cons s rest ih =>
    show s.token :: (snapshotOf rest).map Prod.fst = s.token :: tokensOf rest
    rw [ih]

lemma applySnap_cons_irrelevant (t v : String) (σr : Snap) (rest : List BIOSSetting)
    (h : ∀ s ∈ rest, s.token ≠ t) :
    applySnap ((t, v) :: σr) rest = applySnap σr rest := by
  induction rest with
  | nil => rfl
  | cons s rs ih =>
    show applySnapSetting ((t, v) :: σr) s :: applySnap ((t, v) :: σr) rs =
      applySnapSetting σr s :: applySnap σr rs
    rw [ih (fun x hx => h x (List.mem_cons_of_mem s hx))]
    congr 1
    unfold applySnapSetting
    rw [dictGet_cons_ne t v s.token σr (h s (List.mem_cons_self s rs))]

/-- Applying a snapshot whose key list is exactly the (duplicate-free)
token list restores exactly that snapshot. -/
lemma snapshotOf_applySnap (σ : Snap) (l : List BIOSSetting)
    (hk : σ.map Prod.fst = tokensOf l) (hnd : (tokensOf l).Nodup) :
    snapshotOf (applySnap σ l) = σ := by
  induction l generalizing σ with
  | nil =>
    have hσ : σ = [] := List.map_eq_nil_iff.mp hk
    subst hσ
    rfl
  | cons s rest ih =>
    cases σ with
    | nil => exact absurd hk (by simp [tokensOf])
    | cons p σr =>
      obtain ⟨t, v⟩ := p
      have hk2 : t :: σr.map Prod.fst = s.token :: tokensOf rest := by
        simpa [tokensOf] using hk
      have ht : t = s.token := List.head_eq_of_cons_eq hk2
      have hkr : σr.map Prod.fst = tokensOf rest := List.tail_eq_of_cons_eq hk2
      have hnd2 : (s.token :: tokensOf rest).Nodup := by
        simpa [tokensOf] using hnd
      have hnotin : s.token ∉ tokensOf rest := (List.nodup_cons.mp hnd2).1
      have hndr : (tokensOf rest).Nodup := (List.nodup_cons.mp hnd2).2
      have hrest_ne : ∀ x ∈ rest, x.token ≠ t := by
        intro x hx he
        apply hnotin
        rw [ht] at he
        rw [← he]
        exact List.mem_map_of_mem (fun s => s.token) hx
      show ((applySnapSetting ((t, v) :: σr) s).token,
            (applySnapSetting ((t, v) :: σr) s).current_value) ::
          snapshotOf (applySnap ((t, v) :: σr) rest) = (t, v) :: σr
      rw [applySnap_cons_irrelevant t v σr rest hrest_ne, ih σr hkr hndr]
      have hmem : t ∉ σr.map Prod.fst := by
        rw [hkr, ht]
        exact hnotin
      have hget : dictGet ((t, v) :: σr) s.token = some v := by
        rw [← ht]
        exact dictGet_cons_self t v σr hmem
      unfold applySnapSetting
      rw [hget]
      dsimp only
      rw [ht]

lemma popTrace_concat (sx σ : Snap) (U : List Snap) :
    popTrace sx (U ++ [σ]) = sx :: popTrace σ U := by
  unfold popTrace
  cases U with
  | nil => simp
  | cons u us =>
    show (if ((u :: us ++ [σ]).isEmpty) then ([] : List Snap)
          else sx :: (u :: us ++ [σ]).reverse.dropLast) =
      sx :: (if (u :: us).isEmpty then ([] : List Snap)
             else σ :: (u :: us).reverse.dropLast)
    rw [if_neg (by simp), if_neg (by simp)]
    rw [List.reverse_append]
    simp only [List.reverse_cons, List.reverse_nil, List.nil_append,
      List.singleton_append, List.cons_append]
    rw [List.dropLast_cons_of_ne_nil (by simp)]

lemma popTrace_length (sx : Snap) (U : List Snap) :
    (popTrace sx U).length = U.length := by
  unfold popTrace
  cases U with
  | nil => rfl
  | cons u us =>
    rw [if_neg (by simp)]
    simp [List.length_dropLast]

lemma popTrace_mem {sx : Snap} {U : List Snap} {x : Snap}
    (hx : x ∈ popTrace sx U) : x = sx ∨ x ∈ U := by
  unfold popTrace at hx
  split at hx
  · exact absurd hx (List.not_mem_nil x)
  · rcases List.mem_cons.mp hx with h | h
    · exact Or.inl h
    · exact Or.inr (List.mem_reverse.mp (List.dropLast_sublist _ |>.mem h))

lemma headD_concat (U : List Snap) (σ d : Snap) :
    (U ++ [σ]).headD d = U.headD σ := by
  cases U with
  | nil => rfl
  | cons u us => rfl

lemma undoOp_concat (X : List BIOSSetting) (L : List Snap) (σ : Snap) (R : List Snap) :
    undoOp ⟨X, L ++ [σ], R⟩ = (⟨applySnap σ X, L, R ++ [snapshotOf X]⟩, false) := by
  unfold undoOp
  rw [List.getLast?_concat, List.dropLast_concat]

lemma pyTakeLast_of_le {α : Type} {n : Nat} {l : List α} (h : l.length ≤ n) :
    pyTakeLast n l = l := by
  unfold pyTakeLast
  rw [Nat.sub_eq_zero_of_le h, List.drop_zero]

lemma redoOp_concat (X : List BIOSSetting) (U L : List Snap) (σ : Snap) :
    redoOp ⟨X, U, L ++ [σ]⟩ =
      (⟨applySnap σ X, pyTakeLast 30 (U ++ [snapshotOf X]), L⟩, false) := by
  unfold redoOp
  rw [List.getLast?_concat, List.dropLast_concat]

/-- Full consumption of the undo stack: `n` undos from a state whose undo
stack has `n` snapshots (all with the settings' key set) pop everything,
mirror the popped entries onto the redo stack, and leave the settings
snapshot at the bottom entry. -/
lemma undoN_consume (U : List Snap) :
    ∀ (B R : List Snap) (X : List BIOSSetting),
      (tokensOf X).Nodup →
      (∀ σ ∈ U, σ.map Prod.fst = tokensOf X) →
      ∃ X', undoN U.length ⟨X, B ++ U, R⟩ = ⟨X', B, R ++ popTrace (snapshotOf X) U⟩ ∧
        tokensOf X' = tokensOf X ∧
        snapshotOf X' = U.headD (snapshotOf X) := by
  induction U using List.reverseRecOn with
  | nil =>
    intro B R X hnd hk
    exact ⟨X, by simp [undoN, popTrace], rfl, rfl⟩
  | append_singleton U σ ih =>
    intro B R X hnd hk
    have hsx : snapshotOf (applySnap σ X) = σ :=
      snapshotOf_applySnap σ X (hk σ (by simp)) hnd
    have hlen : (U ++ [σ]).length = U.length + 1 := by simp
    rw [hlen]
    have hstep : undoN (U.length + 1) ⟨X, B ++ (U ++ [σ]), R⟩ =
        undoN U.length ⟨applySnap σ X, B ++ U, R ++ [snapshotOf X]⟩ := by
      show undoN U.length (undoOp ⟨X, B ++ (U ++ [σ]), R⟩).1 = _
      rw [← List.append_assoc, undoOp_concat]
    rw [hstep]
    obtain ⟨X', heq, htok, hsnap⟩ :=
      ih B (R ++ [snapshotOf X]) (applySnap σ X)
        (by rw [tokensOf_applySnap]; exact hnd)
        (fun τ hτ => by
          rw [tokensOf_applySnap]
          exact hk τ (List.mem_append_left _ hτ))
    refine ⟨X', ?_, by rw [htok, tokensOf_applySnap], ?_⟩
    · rw [heq]
      congr 1
      rw [hsx, popTrace_concat, List.append_assoc, List.singleton_append]
    · rw [hsnap, hsx, headD_concat]

/-- Full consumption of the redo stack, symmetric to `undoN_consume`; the
size bound keeps the 30-entry truncation of the undo stack inactive. -/
lemma redoN_consume (V : List Snap) :
    ∀ (B U : List Snap) (X : List BIOSSetting),
      (tokensOf X).Nodup →
      (∀ σ ∈ V, σ.map Prod.fst = tokensOf X) →
      U.length + V.length ≤ 30 →
      ∃ X', redoN V.length ⟨X, U, B ++ V⟩ =
          ⟨X', U ++ popTrace (snapshotOf X) V, B⟩ ∧
        tokensOf X' = tokensOf X ∧
        snapshotOf X' = V.headD (snapshotOf X) := by
  induction V using List.reverseRecOn with
  | nil =>
    intro B U X hnd hk hsz
    exact ⟨X, by simp [redoN, popTrace], rfl, rfl⟩
  | append_singleton V σ ih =>
    intro B U X hnd hk hsz
    have hsx : snapshotOf (applySnap σ X) = σ :=
      snapshotOf_applySnap σ X (hk σ (by simp)) hnd
    have hlen : (V ++ [σ]).length = V.length + 1 := by simp
    rw [hlen]
    have hU1 : (U ++ [snapshotOf X]).length ≤ 30 := by
      simp only [List.length_append, List.length_singleton] at hsz ⊢
      omega
    have hstep : redoN (V.length + 1) ⟨X, U, B ++ (V ++ [σ])⟩ =
        redoN V.length ⟨applySnap σ X, U ++ [snapshotOf X], B ++ V⟩ := by
      show redoN V.length (redoOp ⟨X, U, B ++ (V ++ [σ])⟩).1 = _
      rw [← List.append_assoc, redoOp_concat, pyTakeLast_of_le hU1]
    rw [hstep]
    obtain ⟨X', heq, htok, hsnap⟩ :=
      ih B (U ++ [snapshotOf X]) (applySnap σ X)
        (by rw [tokensOf_applySnap]; exact hnd)
        (fun τ hτ => by
          rw [tokensOf_applySnap]
          exact hk τ (List.mem_append_left _ hτ))
        (by
          simp only [List.length_append, List.length_singleton] at hsz ⊢
          omega)
    refine ⟨X', ?_, by rw [htok, tokensOf_applySnap], ?_⟩
    · rw [heq]
      congr 1
      rw [hsx, popTrace_concat, List.append_assoc, List.singleton_append]
    · rw [hsnap, hsx, headD_concat]

lemma editSetting_token (s : BIOSSetting) (v : String) :
    (editSetting s v).token = s.token := rfl

lemma tokensOf_editSettingsList (X : List BIOSSetting) (t v : String) :
    tokensOf (editSettingsList X t v) = tokensOf X := by
  induction X with
  | nil => rfl
  | cons s rest ih =>
    show (if s.token == t then editSetting s v else s).token ::
        tokensOf (editSettingsList rest t v) = s.token :: tokensOf rest
    rw [ih]
    congr 1
    split
    all_goals rfl

lemma tokensOf_editFold (es : List (String × String)) :
    ∀ X : List BIOSSetting, tokensOf (editFold X es) = tokensOf X := by
  induction es with
  | nil => intro X; rfl
  | cons e rest ih =>
    intro X
    show tokensOf (editFold (editSettingsList X e.1 e.2) rest) = tokensOf X
    rw [ih, tokensOf_editSettingsList]

lemma editTrace_length (es : List (String × String)) :
    ∀ X : List BIOSSetting, (editTrace X es).length = es.length := by
  induction es with
  | nil => intro X; rfl
  | cons e rest ih =>
    intro X
    show (editTrace X (e :: rest)).length = rest.length + 1
    unfold editTrace
    rw [List.length_cons, ih]

lemma editTrace_keys (es : List (String × String)) :
    ∀ (X : List BIOSSetting) (σ : Snap), σ ∈ editTrace X es →
      σ.map Prod.fst = tokensOf X := by
  induction es with
  | nil => intro X σ hσ; exact absurd hσ (List.not_mem_nil σ)
  | cons e rest ih =>
    intro X σ hσ
    unfold editTrace at hσ
    rcases List.mem_cons.mp hσ with h | h
    · rw [h, snapshot_keys]
    · rw [ih (editSettingsList X e.1 e.2) σ h, tokensOf_editSettingsList]

lemma editTrace_headD (es : List (String × String)) (X : List BIOSSetting) :
    (editTrace X es).headD (snapshotOf (editFold X es)) = snapshotOf X := by
  cases es with
  | nil => rfl
  | cons e rest => rfl

/-- The state after a sequence of edits, each preceded by `push_undo`:
with at most 30 edits from a clean redo stack, no truncation happens and
the undo stack accumulates exactly the pre-edit snapshots. -/
lemma applyEdits_spec (es : List (String × String)) :
    ∀ st : GuiState, st.redo_stack = [] →
      st.undo_stack.length + es.length ≤ 30 →
      applyEdits st es =
        ⟨editFold st.settings es, st.undo_stack ++ editTrace st.settings es, []⟩ := by
  induction es with
  | nil =>
    intro st hr hsz
    show st = ⟨st.settings, st.undo_stack ++ [], []⟩
    rw [List.append_nil, ← hr]
  | cons e rest ih =>
    intro st hr hsz
    have hpush : pushUndo st =
        ⟨st.settings, st.undo_stack ++ [snapshotOf st.settings], []⟩ := by
      unfold pushUndo
      rw [pyTakeLast_of_le]
      rw [List.length_append, List.length_singleton]
      simp only [List.length_cons] at hsz
      omega
    have hstep : editStep st e =
        ⟨editSettingsList st.settings e.1 e.2,
          st.undo_stack ++ [snapshotOf st.settings], []⟩ := by
      unfold editStep
      rw [hpush]
    show applyEdits (editStep st e) rest = _
    rw [hstep]
    rw [ih ⟨editSettingsList st.settings e.1 e.2,
          st.undo_stack ++ [snapshotOf st.settings], []⟩ rfl
        (by
          simp only [List.length_append, List.length_singleton,
            List.length_cons, List.length_nil] at hsz ⊢
          omega)]
    show (⟨_, (st.undo_stack ++ [snapshotOf st.settings]) ++
        editTrace (editSettingsList st.settings e.1 e.2) rest, []⟩ : GuiState) = _
    rw [List.append_assoc, List.singleton_append]
    rfl

/-! ## The claims -/

/-- C10: the parser silently discards every block whose stripped text is at
most 10 characters: such a block never appears in the kept-block list over
which the per-block parser runs. -/
theorem c10_short_blocks_discarded (content b : String)
    (hmem : b ∈ blockSplit (settingContentOf content))
    (hshort : (pyStrip b).length ≤ 10) :
    pyStrip b ∉ keptBlocksOf content ∧
    parseDocSettings content = (keptBlocksOf content).filterMap parseBlockOpt := by
  refine ⟨?_, rfl⟩
  intro hk
  rcases List.mem_filterMap.mp hk with ⟨a, _, hfa⟩
  dsimp only at hfa
  split at hfa
  · rename_i hcond
    have heq := Option.some.inj hfa
    rw [heq] at hcond
    omega
  · exact Option.noConfusion hfa

theorem c10_short_blocks_discarded_witness :
    pyStrip "a\nb" ∉ keptBlocksOf "a\nb" ∧
    parseDocSettings "a\nb" = (keptBlocksOf "a\nb").filterMap parseBlockOpt :=
  c10_short_blocks_discarded "a\nb" "a\nb" (by decide) (by decide)

/-- C4: for a Setting with nonempty options and `original_has_options`,
validation reports `MultipleOrNoCurrentOption` iff the number of options
whose value equals `current_value` is not exactly one, and reports
`NotInOptionSet` whenever `current_value` is not among the option values. -/
theorem c4_exactly_one_current (s : BIOSSetting)
    (h1 : s.original_has_options = true) (h2 : s.options ≠ []) :
    (((validateSetting s).any Violation.isMultipleOrNoCurrent) = true ↔
      s.options.countP (fun o => o.1 == s.current_value) ≠ 1) ∧
    (s.current_value ∉ s.options.map (fun o => o.1) →
      ((validateSetting s).any Violation.isNotInOptionSet) = true) := by
  have hcnt : s.options.countP (fun o => o.1 == s.current_value) =
      (s.options.filter (fun o => o.1 == s.current_value)).length :=
    List.countP_eq_length_filter _ _
  unfold validateSetting
  rw [if_pos ⟨h1, h2⟩]
  by_cases hm : s.current_value ∈ s.options.map (fun o => o.1) <;>
    by_cases hc : (s.options.filter (fun o => o.1 == s.current_value)).length = 1 <;>
      simp [hm, hc, hcnt, Violation.isMultipleOrNoCurrent, Violation.isNotInOptionSet]

theorem c4_exactly_one_current_witness :
    (((validateSetting c4WitnessSetting).any Violation.isMultipleOrNoCurrent) = true ↔
      c4WitnessSetting.options.countP
        (fun o => o.1 == c4WitnessSetting.current_value) ≠ 1) ∧
    (c4WitnessSetting.current_value ∉ c4WitnessSetting.options.map (fun o => o.1) →
      ((validateSetting c4WitnessSetting).any Violation.isNotInOptionSet) = true) :=
  c4_exactly_one_current c4WitnessSetting rfl (by decide)

/-- C5 counterexample: for the scalar value `"010"` with known range 0..31
the claim predicts no violation (its `parseInt` reads the decimal 10, which
is in range), but the validator, which calls Python `int(value, 0)`,
reports `NotAnInteger` because base-0 parsing rejects decimal literals with
a leading zero. -/
theorem c5_counterexample :
    specParseIntDecOrHex "010" = some 10 ∧
    ((0 : Int) ≤ 10 ∧ (10 : Int) ≤ 31) ∧
    (validateSetting { BIOSSetting.init with
        range_min := some 0, range_max := some 31,
        current_value := "010" }).any Violation.isNotAnInteger = true ∧
    (validateSetting { BIOSSetting.init with
        range_min := some 0, range_max := some 31,
        current_value := "010" }).any Violation.isOutOfRange = false := by
  decide

/-- C5 (amended): for a scalar Setting with both range bounds known,
validation reports `NotAnInteger` iff Python `int(value, 0)` fails
(base-0 parsing: decimal without leading zeros, or `0x`/`0o`/`0b`
prefixed), and `OutOfRange` iff that parse succeeds with a value outside
the inclusive range. -/
theorem c5_range_validation (s : BIOSSetting) (lo hi : Int)
    (h1 : s.original_has_options = false)
    (h2 : s.range_min = some lo) (h3 : s.range_max = some hi) :
    (((validateSetting s).any Violation.isNotAnInteger) = true ↔
      pyIntBase0 s.current_value = none) ∧
    (((validateSetting s).any Violation.isOutOfRange) = true ↔
      ∃ v, pyIntBase0 s.current_value = some v ∧ ¬ (lo ≤ v ∧ v ≤ hi)) := by
  unfold validateSetting
  rw [if_neg (by simp [h1]), if_pos h1, h2, h3]
  cases hint : pyIntBase0 s.current_value with
  | none =>
    simp [Violation.isNotAnInteger, Violation.isOutOfRange]
  | some v =>
    by_cases hr : lo ≤ v ∧ v ≤ hi
    · simp [hr, Violation.isNotAnInteger, Violation.isOutOfRange]
    · simp [hr, Violation.isNotAnInteger, Violation.isOutOfRange]
      omega

theorem c5_range_validation_witness :
    (((validateSetting c5WitnessSetting).any Violation.isNotAnInteger) = true ↔
      pyIntBase0 c5WitnessSetting.current_value = none) ∧
    (((validateSetting c5WitnessSetting).any Violation.isOutOfRange) = true ↔
      ∃ v, pyIntBase0 c5WitnessSetting.current_value = some v ∧
        ¬ ((0 : Int) ≤ v ∧ v ≤ 31)) :=
  c5_range_validation c5WitnessSetting 0 31 rfl rfl rfl

/-- C6 counterexample: for a changed scalar Setting whose original line is
`Value = <5>`, the claim predicts the emitted line keeps the original
leading label/column text (`Value = `), i.e. reads `Value = <7>`; the
generator instead replaces the whole line by its fixed-width template. -/
theorem c6_counterexample :
    (renderBlockLines { BIOSSetting.init with
        original_block_lines := ["Setup Question = A", "Token = 11", "Value = <5>"]
        current_value := "7" })[2]? = some "Value         = <7>" ∧
    pyStartswith "Value         = <7>" "Value = " = false ∧
    ("Value         = <7>" : String) ≠ "Value = <7>" := by
  decide

/-- C6 (amended): for a scalar Setting (`original_has_options = false`) the
generator replaces every line whose stripped text begins with `Value` by
the fixed line `Value         = <current_value>` — the original label and
column text of the line are not preserved — and passes every other line of
the block through unchanged (each emitted line is then `rstrip`-ped and
newline-terminated). -/
theorem c6_value_line_rewrite (s : BIOSSetting) (j : Nat) (line : String)
    (h : s.original_has_options = false)
    (hline : s.original_block_lines[j]? = some line) :
    (renderBlockLines s)[j]? =
      some (if pyStartswith (pyStrip line) "Value" = true then
              valueLineTemplate s.current_value
            else line) ∧
    renderBlock s = String.join ((renderBlockLines s).map (fun l => pyRstrip l ++ "\n")) := by
  refine ⟨?_, rfl⟩
  unfold renderBlockLines
  rw [if_neg (by simp [h]), if_pos h, List.getElem?_map, hline]
  by_cases hv : pyStartswith (pyStrip line) "Value" = true <;> simp [hv]

theorem c6_value_line_rewrite_witness :
    (renderBlockLines c6WitnessSetting)[2]? =
      some (if pyStartswith (pyStrip "Value = <5>") "Value" = true then
              valueLineTemplate c6WitnessSetting.current_value
            else "Value = <5>") ∧
    renderBlock c6WitnessSetting =
      String.join ((renderBlockLines c6WitnessSetting).map (fun l => pyRstrip l ++ "\n")) :=
  c6_value_line_rewrite c6WitnessSetting 2 "Value = <5>" rfl (by decide)

/-- C3 counterexample: a block with `Value = <1>` whose help text contains
both "Enabled" and "Disabled" (case-insensitively) but whose question text
contains neither `enable` nor `disable`.  The claim predicts synthesized
options and `is_numeric = false`; the live parser consults only the
question text, so it produces no options and `is_numeric = true`. -/
theorem c3_counterexample :
    (parseBlockOpt
        "Setup Question = Memory Remap\nHelp String = Enabled or Disabled remap\nToken = 1A\nValue = <1>").map
      (fun s => (s.options, s.is_numeric, s.current_value)) = some ([], true, "1") ∧
    pyIn "enabled" (pyLower "Enabled or Disabled remap") = true ∧
    pyIn "disabled" (pyLower "Enabled or Disabled remap") = true := by
  decide

/-- C3 (amended): in the live parser, for a parsed block with
field-extraction result `p`, the Enabled/Disabled synthesis fires iff the
value is exactly `0` or `1`, no options were parsed, and the *question*
text (the help text is not consulted) contains `enable` or `disable`
case-insensitively; when it fires the two options are synthesized and
`is_numeric` is false, otherwise the options are unchanged and
`is_numeric` is true iff the value is a nonempty all-digit string. -/
theorem c3_numeric_synthesis (block : String) (p s : BIOSSetting)
    (hf : fieldStage block = some p) (hp : parseBlockOpt block = some s) :
    (synthCond p = true →
      s.options = [("1", "Enabled", p.current_value == "1"),
                   ("0", "Disabled", p.current_value == "0")] ∧ s.is_numeric = false) ∧
    (synthCond p = false →
      s.options = p.options ∧
      (s.is_numeric = true ↔
        p.current_value ≠ "" ∧ p.current_value.toList.all Char.isDigit = true)) := by
  have hfin : finishSetting p = some s := by
    unfold parseBlockOpt at hp
    rw [hf] at hp
    simpa using hp
  have hnum := fieldStage_is_numeric hf
  unfold finishSetting at hfin
  dsimp only at hfin
  split at hfin
  · replace hfin := Option.some.inj hfin
    subst hfin
    constructor
    · intro hsc
      unfold applySynth
      rw [if_pos (by rw [synthCond_inferNumericRange]; exact hsc)]
      refine ⟨?_, rfl⟩
      rw [inferNumericRange_current_value]
    · intro hsc
      have hsc2 : synthCond (inferNumericRange p) = false := by
        rw [synthCond_inferNumericRange]; exact hsc
      unfold applySynth
      rw [if_neg (by simp [hsc2])]
      exact ⟨inferNumericRange_options p, inferNumericRange_is_numeric p hnum⟩
  · exact Option.noConfusion hfin

theorem c3_numeric_synthesis_witness :
    (synthCond c3WitnessP = true →
      c3WitnessS.options = [("1", "Enabled", c3WitnessP.current_value == "1"),
                            ("0", "Disabled", c3WitnessP.current_value == "0")] ∧
        c3WitnessS.is_numeric = false) ∧
    (synthCond c3WitnessP = false →
      c3WitnessS.options = c3WitnessP.options ∧
      (c3WitnessS.is_numeric = true ↔
        c3WitnessP.current_value ≠ "" ∧
          c3WitnessP.current_value.toList.all Char.isDigit = true)) :=
  c3_numeric_synthesis c3WitnessBlock c3WitnessP c3WitnessS (by decide) (by decide)

/-- C1: `render(parse(text))` is *not* the identity even with no edits:
the generator rewrites the untouched `Value` line of the single setting
into its fixed-width template (and appends a terminating newline), so the
emitted block is not byte-identical to the source. -/
theorem c1_roundtrip_violated :
    render (parseDoc c1Doc).1 "" (parseDoc c1Doc).2 =
      "// hdr\nSetup Question = A\nToken = 11\nValue         = <5>\n" ∧
    render (parseDoc c1Doc).1 "" (parseDoc c1Doc).2 ≠ c1Doc ∧
    ((parseDoc c1Doc).2.map (fun s => (s.token, s.current_value)) = [("11", "5")]) := by
  decide

/-- C2 counterexample: editing only the first setting (token `11`), the
second setting is untouched, yet its original block text `Value = <2>`
occurs nowhere in the rendered output — the generator rewrites the `Value`
line of *every* scalar block, so unedited blocks are not byte-identical to
their original text. -/
theorem c2_counterexample :
    ((parseDoc c2Doc).2.map (fun s => (s.token, s.current_value)) =
      [("11", "1"), ("22", "2")]) ∧
    (editSettingsList (parseDoc c2Doc).2 "11" "3")[1]? = (parseDoc c2Doc).2[1]? ∧
    pyIn "Value = <2>" c2Doc = true ∧
    pyIn "Value = <2>"
      (render (parseDoc c2Doc).1 "" (editSettingsList (parseDoc c2Doc).2 "11" "3")) = false := by
  decide

/-- C2 (amended): rendering is blockwise, so changing exactly one Setting's
value changes the rendered output only within that Setting's block
*relative to the rendered unedited document*: every setting whose token
differs from the edited one has its block rendered byte-identically to its
own unedited rendering (though not necessarily to its original source
text), and the edited setting's entry is exactly the edit of the original
one. -/
theorem c2_render_frame (settings : List BIOSSetting) (tok val : String)
    (j : Nat) (sj : BIOSSetting) (hdr dh : String)
    (hj : settings[j]? = some sj) (hhdr : hdr ≠ "") :
    (sj.token ≠ tok →
      (editSettingsList settings tok val)[j]?.map renderBlock = some (renderBlock sj)) ∧
    (sj.token = tok →
      (editSettingsList settings tok val)[j]? = some (editSetting sj val)) ∧
    render hdr dh (editSettingsList settings tok val) =
      hdr ++ String.join ((editSettingsList settings tok val).map renderBlock) := by
  refine ⟨?_, ?_, ?_⟩
  · intro hne
    unfold editSettingsList
    rw [List.getElem?_map, hj]
    have hb : (sj.token == tok) = false := by simp [hne]
    simp [hb]
    rw [if_neg hne]
  · intro he
    unfold editSettingsList
    rw [List.getElem?_map, hj]
    have hb : (sj.token == tok) = true := by simp [he]
    simp [hb]
    exact fun hcon => absurd he hcon
  · unfold render
    rw [if_pos hhdr]

theorem c2_render_frame_witness :
    (("22" : String) ≠ "11" →
      (editSettingsList c2WitnessSettings "11" "3")[1]?.map renderBlock =
        some (renderBlock { BIOSSetting.init with
          token := "22", current_value := "2"
          original_block_lines := ["Setup Question = Beta", "Token = 22", "Value = <2>"] })) ∧
    (("22" : String) = "11" →
      (editSettingsList c2WitnessSettings "11" "3")[1]? =
        some (editSetting { BIOSSetting.init with
          token := "22", current_value := "2"
          original_block_lines := ["Setup Question = Beta", "Token = 22", "Value = <2>"] } "3")) ∧
    render "// hdr\n" "" (editSettingsList c2WitnessSettings "11" "3") =
      "// hdr\n" ++ String.join ((editSettingsList c2WitnessSettings "11" "3").map renderBlock) :=
  c2_render_frame c2WitnessSettings "11" "3" 1
    { BIOSSetting.init with
      token := "22", current_value := "2"
      original_block_lines := ["Setup Question = Beta", "Token = 22", "Value = <2>"] }
    "// hdr\n" "" (by decide) (by decide)

/-- C9: a malformed block — here, one with no `Token` line — is dropped and
parsing of the surrounding blocks is unaffected: the parsed settings are
exactly those of the other blocks, and when all other blocks are valid the
count is `totalBlocks - 1`. -/
theorem c9_malformed_block_tolerance (content : String) (pre post : List String)
    (bad : String)
    (hsplit : keptBlocksOf content = pre ++ bad :: post)
    (hbad : ∀ l ∈ semanticLines ((pySplitNl bad).filter (fun x => pyStrip x ≠ "")),
        pyStartswith l "Token" = false)
    (hpre : ∀ b ∈ pre, (parseBlockOpt b).isSome = true)
    (hpost : ∀ b ∈ post, (parseBlockOpt b).isSome = true) :
    parseDocSettings content = pre.filterMap parseBlockOpt ++ post.filterMap parseBlockOpt ∧
    (parseDocSettings content).length = (pre ++ bad :: post).length - 1 := by
  have hnone := parseBlockOpt_none_of_no_token bad hbad
  have heq : parseDocSettings content =
      pre.filterMap parseBlockOpt ++ post.filterMap parseBlockOpt := by
    unfold parseDocSettings
    rw [hsplit, List.filterMap_append]
    congr 1
    rw [List.filterMap_cons, hnone]
  refine ⟨heq, ?_⟩
  rw [heq, List.length_append, length_filterMap_of_isSome _ _ hpre,
    length_filterMap_of_isSome _ _ hpost, List.length_append, List.length_cons]
  omega

theorem c9_malformed_block_tolerance_witness :
    parseDocSettings c9Doc =
      [c9B1].filterMap parseBlockOpt ++ [c9B3].filterMap parseBlockOpt ∧
    (parseDocSettings c9Doc).length = ([c9B1] ++ c9B2 :: [c9B3]).length - 1 :=
  c9_malformed_block_tolerance c9Doc [c9B1] [c9B3] c9B2
    (by decide) (by decide) (by decide) (by decide)

/-- C8: starting from a fresh document state (both stacks empty), after any
sequence of `push_undo`/`undo`/`redo` neither stack exceeds 30 snapshots;
a `push_undo` on a full undo stack drops the oldest entry and appends the
new snapshot, and every `push_undo` clears the redo stack. -/
theorem c8_history_bounds (S : List BIOSSetting) (ops : List HistOp)
    (st1 : GuiState) (h30 : st1.undo_stack.length = 30) :
    (ops.foldl execOp ⟨S, [], []⟩).undo_stack.length ≤ 30 ∧
    (ops.foldl execOp ⟨S, [], []⟩).redo_stack.length ≤ 30 ∧
    (pushUndo st1).undo_stack = st1.undo_stack.tail ++ [snapshotOf st1.settings] ∧
    (pushUndo st1).redo_stack = [] := by
  have hb := foldl_execOp_bound ops ⟨S, [], []⟩ (by simp)
  refine ⟨by omega, by omega, ?_, rfl⟩
  unfold pushUndo pyTakeLast
  dsimp only
  rw [List.length_append, h30]
  norm_num
  cases hu : st1.undo_stack with
  | nil => rw [hu] at h30; exact absurd h30 (by decide)
  | cons a t => rfl

theorem c8_history_bounds_witness :
    (([HistOp.push, HistOp.undoCmd, HistOp.redoCmd].foldl execOp
        ⟨[BIOSSetting.init], [], []⟩).undo_stack.length ≤ 30) ∧
    (([HistOp.push, HistOp.undoCmd, HistOp.redoCmd].foldl execOp
        ⟨[BIOSSetting.init], [], []⟩).redo_stack.length ≤ 30) ∧
    (pushUndo c8WitnessState).undo_stack =
      c8WitnessState.undo_stack.tail ++ [snapshotOf c8WitnessState.settings] ∧
    (pushUndo c8WitnessState).redo_stack = [] :=
  c8_history_bounds [BIOSSetting.init] [HistOp.push, HistOp.undoCmd, HistOp.redoCmd]
    c8WitnessState (by decide)

/-- C7 (amended): starting from any state `S0` with duplicate-free tokens
and applying at most 30 edits (each pushing a snapshot before the edit),
`undo()` once per edit restores the token-to-current_value snapshot of
`S0` exactly, and `redo()` once per edit then restores the snapshot of the
state after the last edit; `undo()` on an empty undo stack is a no-op with
a signal, and applying a snapshot leaves any setting whose token is absent
from it untouched.  For more than 30 edits the oldest snapshots are
dropped and `S0` is no longer recoverable. -/
theorem c7_undo_redo_roundtrip (S0 : List BIOSSetting) (es : List (String × String))
    (st2 : GuiState) (σ : Snap) (s : BIOSSetting)
    (hnd : (tokensOf S0).Nodup) (hlen : es.length ≤ 30)
    (hempty : st2.undo_stack = []) (habs : s.token ∉ σ.map Prod.fst) :
    snapshotOf ((undoN es.length (applyEdits ⟨S0, [], []⟩ es)).settings) =
      snapshotOf S0 ∧
    snapshotOf ((redoN es.length
        (undoN es.length (applyEdits ⟨S0, [], []⟩ es))).settings) =
      snapshotOf ((applyEdits ⟨S0, [], []⟩ es).settings) ∧
    undoOp st2 = (st2, true) ∧
    applySnapSetting σ s = s := by
  have hedits := applyEdits_spec es ⟨S0, [], []⟩ rfl (by simpa using hlen)
  rw [hedits]
  have htokXn : tokensOf (editFold S0 es) = tokensOf S0 := tokensOf_editFold es S0
  have hndXn : (tokensOf (editFold S0 es)).Nodup := by rw [htokXn]; exact hnd
  have hkeys : ∀ τ ∈ editTrace S0 es, τ.map Prod.fst = tokensOf (editFold S0 es) := by
    intro τ hτ
    rw [htokXn]
    exact editTrace_keys es S0 τ hτ
  have hlen2 : es.length = (editTrace S0 es).length := (editTrace_length es S0).symm
  obtain ⟨X', hequ, htok', hsnap'⟩ :=
    undoN_consume (editTrace S0 es) [] [] (editFold S0 es) hndXn hkeys
  rw [hlen2, hequ]
  have hsnapS0 : snapshotOf X' = snapshotOf S0 := by
    rw [hsnap']
    exact editTrace_headD es S0
  refine ⟨hsnapS0, ?_, ?_, applySnapSetting_not_mem σ s habs⟩
  · -- redo phase
    have hndX' : (tokensOf X').Nodup := by rw [htok']; exact hndXn
    have hkeysV : ∀ τ ∈ popTrace (snapshotOf (editFold S0 es)) (editTrace S0 es),
        τ.map Prod.fst = tokensOf X' := by
      intro τ hτ
      rw [htok', htokXn]
      rcases popTrace_mem hτ with h | h
      · rw [h, snapshot_keys, htokXn]
      · exact editTrace_keys es S0 τ h
    have hlenV : es.length =
        (popTrace (snapshotOf (editFold S0 es)) (editTrace S0 es)).length := by
      rw [popTrace_length, editTrace_length]
    obtain ⟨X'', heqr, htok'', hsnap''⟩ :=
      redoN_consume (popTrace (snapshotOf (editFold S0 es)) (editTrace S0 es))
        [] [] X' hndX' hkeysV (by rw [← hlenV]; simpa using hlen)
    have hlenV2 : (editTrace S0 es).length =
        (popTrace (snapshotOf (editFold S0 es)) (editTrace S0 es)).length := by
      rw [popTrace_length]
    rw [hlenV2, heqr]
    show snapshotOf X'' = snapshotOf (editFold S0 es)
    rw [hsnap'']
    cases es with
    | nil =>
      show ([] : List Snap).headD (snapshotOf X') = snapshotOf (editFold S0 [])
      rw [List.headD_nil]
      exact hsnap'
    | cons e rest =>
      show (popTrace (snapshotOf (editFold S0 (e :: rest)))
          (snapshotOf S0 :: editTrace (editSettingsList S0 e.1 e.2) rest)).headD
          (snapshotOf X') = snapshotOf (editFold S0 (e :: rest))
      unfold popTrace
      rw [if_neg (by simp)]
      rfl
  · unfold undoOp
    rw [hempty]
    rfl

/-- C7 counterexample: with 31 edits the first snapshot (of state `S0`) is
dropped from the bounded undo stack, so 31 `undo()` calls leave the value
of the first edit, not the original `v0`: the round trip fails for
`n = 31`. -/
theorem c7_counterexample :
    snapshotOf ((undoN 31 (applyEdits ⟨c7S0, [], []⟩
        (List.replicate 31 ("01", "w")))).settings) = [("01", "w")] ∧
    snapshotOf ((undoN 31 (applyEdits ⟨c7S0, [], []⟩
        (List.replicate 31 ("01", "w")))).settings) ≠ snapshotOf c7S0 ∧
    (List.replicate 31 (("01", "w") : String × String)).length = 31 := by
  decide

theorem c7_undo_redo_roundtrip_witness :
    snapshotOf ((undoN ([("01", "w")] : List (String × String)).length
        (applyEdits ⟨c7S0, [], []⟩ [("01", "w")])).settings) = snapshotOf c7S0 ∧
    snapshotOf ((redoN ([("01", "w")] : List (String × String)).length
        (undoN ([("01", "w")] : List (String × String)).length
          (applyEdits ⟨c7S0, [], []⟩ [("01", "w")]))).settings) =
      snapshotOf ((applyEdits ⟨c7S0, [], []⟩ [("01", "w")]).settings) ∧
    undoOp ⟨[], [], [[("02", "x")]]⟩ = (⟨[], [], [[("02", "x")]]⟩, true) ∧
    applySnapSetting [("02", "x")] c7WitnessS = c7WitnessS :=
  c7_undo_redo_roundtrip c7S0 [("01", "w")] ⟨[], [], [[("02", "x")]]⟩
    [("02", "x")] c7WitnessS (by decide) (by decide) rfl (by decide)
